import Mathlib

/-!
Shallow embedding of the data-preparation pipeline of the
HousingPricePrediction repository (notebooks/housing_price_predictor_model.ipynb)
and proofs of the specification claims about it.

The notebook's pandas operations are modelled over `List Char` / `String`
cells, with rational numbers standing in for IEEE floats (all numeric claims
here are about exact parsing and ordering, where the idealisation is exact),
missing cells (`NaN`) as `Option`, and the abort behaviour of
`Series.astype(float)` on unparseable text as `Except`.
-/

/-- Whitespace characters accepted by Python `float()` stripping and matched
by the regex class `\s` (ASCII subset; the notebook data uses plain spaces). -/
def isSpaceCh (c : Char) : Bool :=
  c = ' ' || c = '\t' || c = '\n' || c = '\r' || c = '\x0b' || c = '\x0c'

def isDigitCh (c : Char) : Bool := c.isDigit

def digitsVal (cs : List Char) : Nat :=
  cs.foldl (fun acc c => 10 * acc + (c.toNat - '0'.toNat)) 0

def allDigits (cs : List Char) : Bool := cs.all isDigitCh

def parseNatDigits (cs : List Char) : Option Nat :=
  if cs.isEmpty then none
  else if allDigits cs then some (digitsVal cs) else none

/-- Split a character list at every occurrence of `c` (like `str.split`). -/
def splitOnChar (c : Char) : List Char → List (List Char)
  | [] => [[]]
  | x :: xs =>
    let r := splitOnChar c xs
    if x = c then [] :: r
    else
      match r with
      | [] => [[x]]
      | h :: t => (x :: h) :: t

/-- Mantissa of a float literal: digits with at most one decimal point, at
least one digit overall (`"1"`, `"1."`, `".5"`, `"1.5"`). -/
def parseMantissa (cs : List Char) : Option ℚ :=
  match splitOnChar '.' cs with
  | [ip] =>
    if ip.isEmpty then none
    else if allDigits ip then some (digitsVal ip : ℚ) else none
  | [ip, fp] =>
    if ip.isEmpty && fp.isEmpty then none
    else if allDigits ip && allDigits fp then
      some ((digitsVal ip : ℚ) + (digitsVal fp : ℚ) / (10 : ℚ) ^ fp.length)
    else none
  | _ => none

def parseExpPart (cs : List Char) : Option Int :=
  match cs with
  | '+' :: t => (parseNatDigits t).map (fun n => (n : Int))
  | '-' :: t => (parseNatDigits t).map (fun n => -(n : Int))
  | t => (parseNatDigits t).map (fun n => (n : Int))

/-- Python `float(str)` conversion as used by `Series.astype(float)`:
surrounding whitespace stripped, optional sign, decimal mantissa, optional
exponent. Non-finite literals (`inf`, `nan`) and underscore separators are
not representable in `ℚ` and do not occur in the scraped data, so they are
outside this model. Returns `none` exactly when Python would raise
`ValueError` on a finite-looking literal. -/
def parseFloatChars (cs : List Char) : Option ℚ :=
  let cs1 := ((cs.dropWhile isSpaceCh).reverse.dropWhile isSpaceCh).reverse
  match cs1 with
  | '+' :: t => parseFloatAbs t
  | '-' :: t => (parseFloatAbs t).map (fun q => -q)
  | t => parseFloatAbs t
where
  parseFloatAbs (cs : List Char) : Option ℚ :=
    let cs2 := cs.map (fun c => if c = 'E' then 'e' else c)
    match splitOnChar 'e' cs2 with
    | [m] => parseMantissa m
    | [m, e] =>
      match parseMantissa m, parseExpPart e with
      | some q, some z => some (q * (10 : ℚ) ^ z)
      | _, _ => none
    | _ => none

def parseFloatQ (s : String) : Option ℚ := parseFloatChars s.toList

/-- Replace every (non-overlapping, left-to-right) occurrence of `pat` in the
text by `repl`, like Python `str.replace` and `Series.str.replace`; the fuel
argument makes the recursion structural. -/
def replaceAllAux : Nat → List Char → List Char → List Char → List Char
  | 0, _, _, s => s
  | _, _, _, [] => []
  | Nat.succ f, pat, repl, c :: cs =>
    if pat.isPrefixOf (c :: cs) then
      repl ++ replaceAllAux f pat repl ((c :: cs).drop pat.length)
    else c :: replaceAllAux f pat repl cs

def replaceAll (pat repl s : List Char) : List Char :=
  replaceAllAux s.length pat repl s

def strReplace (s pat repl : String) : String :=
  ⟨replaceAll pat.toList repl.toList s.toList⟩

/-- Step 4 text normalisation for the rent column, from the source:
`.str.replace(' zł', '').str.replace(',', '.').str.replace(' ', '')`. -/
def czynszClean (s : String) : String :=
  strReplace (strReplace (strReplace s " zł" "") "," ".") " " ""

/-- Step 4 rent cell cleaning, from the source: `df['Czynsz']` is passed
through `.replace('brak informacji', np.nan)`, the text normalisation above,
and `.astype(float)`; a missing cell stays missing and an unparseable
remainder makes `astype` raise `ValueError` (modelled as `.error`). -/
def cleanCzynsz : Option String → Except String (Option ℚ)
  | none => .ok none
  | some s =>
    if s = "brak informacji" then .ok none
    else
      match parseFloatQ (czynszClean s) with
      | some q => .ok (some q)
      | none => .error s

/-- Step 3 text normalisation for the size column, from the source:
`.str.replace('m²', '', regex=True).str.replace(',', '.')`. -/
def sizeClean (s : String) : String :=
  strReplace (strReplace s "m²" "") "," "."

/-- Step 3 size cell cleaning, from the source: text normalisation followed by
`.astype(float)`; there is no sentinel handling, so any unparseable remainder
raises (modelled as `.error`). -/
def cleanSize : Option String → Except String (Option ℚ)
  | none => .ok none
  | some s =>
    match parseFloatQ (sizeClean s) with
    | some q => .ok (some q)
    | none => .error s

/-- Step 7 text normalisation for the price column, from the source:
`.str.replace(' zł', '').str.replace(' ', '').str.replace(',', '.')`. -/
def priceClean (s : String) : String :=
  strReplace (strReplace (strReplace s " zł" "") " " "") "," "."

/-- Step 7 price cell cleaning, from the source: text normalisation, then
`.replace('Pricenotavailable', np.nan)` (the sentinel compared after space
removal), then `.astype(float)`. -/
def cleanPrice : Option String → Except String (Option ℚ)
  | none => .ok none
  | some s =>
    let t := priceClean s
    if t = "Pricenotavailable" then .ok none
    else
      match parseFloatQ t with
      | some q => .ok (some q)
      | none => .error s

/-- Step 7 applied to the whole price column followed by
`df.dropna(subset=['price'])`: every cell is cleaned (an unparseable cell
aborts, as `astype` raises for the whole column) and the missing results are
dropped. -/
def priceStage : List (Option String) → Except String (List ℚ)
  | [] => .ok []
  | c :: cs =>
    match cleanPrice c with
    | .error e => .error e
    | .ok none => priceStage cs
    | .ok (some q) =>
      match priceStage cs with
      | .error e => .error e
      | .ok vs => .ok (q :: vs)

/-- The value a price cell contributes to the surviving column, if any. -/
def priceKeep (c : Option String) : Option ℚ :=
  match cleanPrice c with
  | .ok o => o
  | .error _ => none

/-! ## Step 10: outlier removal (IQR fences) -/

/-- One row of the cleaned dataset, reduced to the two numeric columns the
outlier stage inspects (`none` is a missing value). -/
structure Listing where
  price : Option ℚ
  size : Option ℚ
deriving DecidableEq

/-- Series.quantile at `k/4` with pandas' default linear interpolation:
position `pos = (k/4)·(n−1)` into the sorted present values, value
`ys[⌊pos⌋] + frac·(ys[⌊pos⌋+1] − ys[⌊pos⌋])`. The position is kept in
quarter units (`k·(n−1) = 4·pos`), so `⌊pos⌋ = k·(n−1)/4` and
`frac = (k·(n−1) mod 4)/4` exactly; the source only ever asks for
`quantile(0.25)` and `quantile(0.75)`. An empty column yields `none`
(pandas: `NaN`). -/
def quantile4 (k : Nat) (xs : List ℚ) : Option ℚ :=
  let ys := List.insertionSort (· ≤ ·) xs
  match ys with
  | [] => none
  | _ :: _ =>
    let n := ys.length
    let pos := k * (n - 1)
    let i := pos / 4
    let r := pos % 4
    some (ys.getD i 0 + ((r : ℚ) / 4) * (ys.getD (min (i + 1) (n - 1)) 0 - ys.getD i 0))

/-- The source's `remove_outliers(df, column)`: Q1 and Q3 over the column's
present values, and `df[(df[column] > Q1 - 1.5*IQR) & (df[column] < Q3 + 1.5*IQR)]`;
a missing cell compares false on both sides and is removed. When the column
has no present values both quantiles are `NaN` and the filter keeps nothing. -/
def removeOutliers (rows : List Listing) (col : Listing → Option ℚ) : List Listing :=
  match quantile4 1 (rows.filterMap col), quantile4 3 (rows.filterMap col) with
  | some q1, some q3 =>
    rows.filter fun r =>
      match col r with
      | some v => decide (q1 - 3/2 * (q3 - q1) < v) && decide (v < q3 + 3/2 * (q3 - q1))
      | none => false
  | _, _ => []

/-- Step 10 as run by the notebook: outliers removed on `price` first, then on
`size` (so the size-pass quantiles see the already price-filtered rows). -/
def outlierStage (rows : List Listing) : List Listing :=
  removeOutliers (removeOutliers rows Listing.price) Listing.size

/-! ## Claims about the cleaning stage (C2, C4, C6) -/

/-- Claim C2 (amended): after the price-cleaning stage completes, the
surviving values are exactly the successfully parsed numeric prices in row
order, and every cell of the column parsed or was recognised as missing (an
unparseable non-sentinel cell would instead have aborted the stage). The
original claim's guarantees `price > 0`, `size > 0` and "never aborts" are
not established by the code (see the counterexample). -/
theorem priceStage_survivors_characterization (xs : List (Option String)) (vs : List ℚ)
    (h : priceStage xs = .ok vs) :
    vs = xs.filterMap priceKeep ∧ ∀ c ∈ xs, ∃ o, cleanPrice c = .ok o := by
  induction xs generalizing vs with
  | nil =>
    simp only [priceStage] at h
    injection h with h1
    subst h1
    exact ⟨by simp, by simp⟩
  | cons c cs ih =>
    rw [priceStage] at h
    cases hc : cleanPrice c with
    | error e =>
      rw [hc] at h
      exact absurd h (by simp)
    | ok o =>
      cases o with
      | none =>
        rw [hc] at h
        obtain ⟨h1, h2⟩ := ih vs h
        refine ⟨by simp [List.filterMap_cons, priceKeep, hc, h1], ?_⟩
        intro d hd
        rcases List.mem_cons.mp hd with rfl | hd'
        · exact ⟨none, hc⟩
        · exact h2 d hd'
      | some q =>
        rw [hc] at h
        cases hs : priceStage cs with
        | error e =>
          rw [hs] at h
          exact absurd h (by simp)
        | ok vs' =>
          rw [hs] at h
          injection h with h1
          subst h1
          obtain ⟨h1, h2⟩ := ih vs' hs
          refine ⟨by simp [List.filterMap_cons, priceKeep, hc, h1], ?_⟩
          intro d hd
          rcases List.mem_cons.mp hd with rfl | hd'
          · exact ⟨some q, hc⟩
          · exact h2 d hd'

/-- Claim C2, counterexample: a price cell `"0 zł"` parses and survives the
cleaning stage with price `0`, which is not `> 0`; a price cell `"cena"`
makes the stage abort instead of being dropped; and a size cell `"0"` cleans
to `0`, which is not `> 0`. -/
theorem priceStage_claim_counterexample :
    priceStage [some "0 zł"] = .ok [(0 : ℚ)] ∧ ¬ (0 : ℚ) > 0 ∧
      priceStage [some "cena"] = .error "cena" ∧
      cleanSize (some "0") = .ok (some (0 : ℚ)) := by
  refine ⟨rfl, by norm_num, rfl, rfl⟩

/-- Claim C2, witness: a concrete column on which the amended claim's
hypothesis holds. -/
theorem priceStage_survivors_characterization_witness :
    priceStage [some "10 zł", none, some "Price not available"] = .ok [(10 : ℚ)] ∧
      ([(10 : ℚ)] = [some "10 zł", none, some "Price not available"].filterMap priceKeep ∧
        ∀ c ∈ [some "10 zł", none, some "Price not available"], ∃ o, cleanPrice c = .ok o) :=
  ⟨rfl, priceStage_survivors_characterization [some "10 zł", none, some "Price not available"] [(10 : ℚ)] rfl⟩

/-- Claim C4 (amended): on the non-target fields only an already-missing cell
(or, for rent, the exact sentinel `"brak informacji"`) yields the missing
marker; any other cell whose normalised text fails to parse as a float makes
`astype(float)` raise, aborting the run, instead of becoming missing. -/
theorem nontarget_parse_failure_raises (s : String)
    (h1 : s ≠ "brak informacji")
    (h2 : parseFloatQ (czynszClean s) = none)
    (h3 : parseFloatQ (sizeClean s) = none) :
    cleanCzynsz (some s) = .error s ∧ cleanSize (some s) = .error s ∧
      cleanCzynsz (some "brak informacji") = .ok none ∧
      cleanCzynsz none = .ok none ∧ cleanSize none = .ok none := by
  refine ⟨?_, ?_, rfl, rfl, rfl⟩
  · simp only [cleanCzynsz, if_neg h1, h2]
  · simp only [cleanSize, h3]

/-- Claim C4, counterexample: malformed rent text and malformed size text
both raise (are fatal), contradicting "never raises on malformed size or
rent text"; Python: `astype(float)` raises `ValueError` on `"abc"`. -/
theorem nontarget_malformed_raises_counterexample :
    cleanCzynsz (some "abc") = .error "abc" ∧ cleanSize (some "abc") = .error "abc" ∧
      (.error "abc" : Except String (Option ℚ)) ≠ .ok none :=
  ⟨rfl, rfl, fun h => Except.noConfusion h⟩

/-- Claim C4, witness: the amended theorem applied at the malformed cell
text `"xyz"`. -/
theorem nontarget_parse_failure_raises_witness :
    ("xyz" ≠ "brak informacji") ∧ parseFloatQ (czynszClean "xyz") = none ∧
      parseFloatQ (sizeClean "xyz") = none ∧
      (cleanCzynsz (some "xyz") = .error "xyz" ∧ cleanSize (some "xyz") = .error "xyz" ∧
        cleanCzynsz (some "brak informacji") = .ok none ∧
        cleanCzynsz none = .ok none ∧ cleanSize none = .ok none) :=
  ⟨by decide, rfl, rfl, nontarget_parse_failure_raises "xyz" (by decide) rfl rfl⟩

/-- Claim C6 (amended): the rent normaliser maps the sentinel
`"brak informacji"` to missing, strips the currency suffix and interior
spaces, replaces the decimal comma, and parses the remainder as a float; the
well-formed input `"1 234,50 zł"` yields exactly `1234.50`. But remaining
unparseable text raises (aborts the run) rather than yielding missing. -/
theorem czynsz_normalizer_behaviour (s : String)
    (h1 : s ≠ "brak informacji")
    (h2 : parseFloatQ (czynszClean s) = none) :
    cleanCzynsz (some "1 234,50 zł") = .ok (some (2469 / 2 : ℚ)) ∧
      cleanCzynsz (some "brak informacji") = .ok none ∧
      cleanCzynsz (some s) = .error s := by
  refine ⟨?_, rfl, by simp only [cleanCzynsz, if_neg h1, h2]⟩
  have hv : cleanCzynsz (some "1 234,50 zł") =
      .ok (some ((1234 : ℚ) + (50 : ℚ) / (10 : ℚ) ^ 2)) := rfl
  rw [hv]
  norm_num

/-- Claim C6, counterexample: rent text that is still unparseable after
normalisation raises instead of yielding the missing marker. -/
theorem czynsz_unparseable_raises_counterexample :
    cleanCzynsz (some "??") = .error "??" ∧
      (.error "??" : Except String (Option ℚ)) ≠ .ok none :=
  ⟨rfl, fun h => Except.noConfusion h⟩

/-- Claim C6, witness: the amended theorem applied at the unparseable cell
text `"dwa"`. -/
theorem czynsz_normalizer_behaviour_witness :
    ("dwa" ≠ "brak informacji") ∧ parseFloatQ (czynszClean "dwa") = none ∧
      (cleanCzynsz (some "1 234,50 zł") = .ok (some (2469 / 2 : ℚ)) ∧
        cleanCzynsz (some "brak informacji") = .ok none ∧
        cleanCzynsz (some "dwa") = .error "dwa") :=
  ⟨by decide, rfl, czynsz_normalizer_behaviour "dwa" (by decide) rfl⟩

/-- Claim C3: the Outlier Filter computes Q1 and Q3 over the column's present
values, and retains exactly the rows in `rows` whose value in the column is
present and lies strictly inside the fences `Q1 − 1.5·IQR` and `Q3 + 1.5·IQR`
(rows with a missing value are always removed); and the stage applies the
filter to `price` first and then to `size`, the size pass running on the
already price-filtered row set. -/
theorem outlier_filter_fence_membership (rows : List Listing) (col : Listing → Option ℚ)
    (q1 q3 : ℚ) (r : Listing)
    (h1 : quantile4 1 (rows.filterMap col) = some q1)
    (h3 : quantile4 3 (rows.filterMap col) = some q3) :
    (r ∈ removeOutliers rows col ↔
        r ∈ rows ∧ ∃ v, col r = some v ∧
          q1 - 3/2 * (q3 - q1) < v ∧ v < q3 + 3/2 * (q3 - q1)) ∧
      outlierStage rows = removeOutliers (removeOutliers rows Listing.price) Listing.size := by
  refine ⟨?_, rfl⟩
  unfold removeOutliers
  rw [h1, h3]
  simp only [List.mem_filter]
  cases hc : col r with
  | none => simp [hc]
  | some v => simp [hc]

/-- Sample cleaned rows used to witness the outlier-filter claim. -/
def sampleListings : List Listing :=
  [⟨some 1, some 5⟩, ⟨some 2, some 6⟩, ⟨some 3, some 7⟩, ⟨some 4, some 8⟩, ⟨some 100, some 9⟩]

/-- Claim C3, witness: on five concrete rows the price quartiles are 2 and 4
and the fence-membership equivalence holds for the row priced 100. -/
theorem outlier_filter_fence_membership_witness :
    quantile4 1 (sampleListings.filterMap Listing.price) = some 2 ∧
      quantile4 3 (sampleListings.filterMap Listing.price) = some 4 ∧
      (((⟨some 100, some 9⟩ : Listing) ∈ removeOutliers sampleListings Listing.price ↔
          (⟨some 100, some 9⟩ : Listing) ∈ sampleListings ∧
            ∃ v, Listing.price ⟨some 100, some 9⟩ = some v ∧
              2 - 3/2 * (4 - 2) < v ∧ v < 4 + 3/2 * (4 - 2)) ∧
        outlierStage sampleListings =
          removeOutliers (removeOutliers sampleListings Listing.price) Listing.size) := by
  have hq1 : quantile4 1 (sampleListings.filterMap Listing.price) = some 2 := by
    have e : quantile4 1 (sampleListings.filterMap Listing.price) =
        some ((2 : ℚ) + (0 : ℚ) / 4 * (3 - 2)) := rfl
    rw [e]; norm_num
  have hq3 : quantile4 3 (sampleListings.filterMap Listing.price) = some 4 := by
    have e : quantile4 3 (sampleListings.filterMap Listing.price) =
        some ((4 : ℚ) + (0 : ℚ) / 4 * (100 - 4)) := rfl
    rw [e]; norm_num
  exact ⟨hq1, hq3,
    outlier_filter_fence_membership sampleListings Listing.price 2 4 ⟨some 100, some 9⟩ hq1 hq3⟩

/-! ## Step 6: location extraction via `str.extract` -/

/-- Python regex word characters `\w` as they occur in this dataset: ASCII
alphanumerics, underscore, and the Polish letters appearing in the scraped
location strings (Python's `\w` is full Unicode; the restriction to this
character set is exact on the vocabulary the pipeline handles). -/
def isWordChar (c : Char) : Bool :=
  c.isAlphanum || c = '_' ||
    ['ą', 'ć', 'ę', 'ł', 'ń', 'ó', 'ś', 'ż', 'ź',
      'Ą', 'Ć', 'Ę', 'Ł', 'Ń', 'Ó', 'Ś', 'Ż', 'Ź'].contains c

/-- Tokens of the three location patterns: a capturing `(\w+)`, a
non-capturing `\w+`, `\s*`, a literal character, and the `$` anchor. -/
inductive RTok where
  | wcap : RTok
  | wplain : RTok
  | sstar : RTok
  | lit : Char → RTok
  | eos : RTok

/-- Backtracking matcher for a token list at the start of the text, with
Python's greedy semantics: `\w+`/`\s*` try the longest run first and give
back characters on failure; returns the captured groups in order. -/
def matchToks : List RTok → List Char → Option (List (List Char))
  | [], _ => some []
  | .eos :: toks, s => if s.isEmpty then matchToks toks s else none
  | .lit c :: toks, s =>
    match s with
    | [] => none
    | x :: xs => if x = c then matchToks toks xs else none
  | .wplain :: toks, s =>
    (List.range (s.takeWhile isWordChar).length).findSome? fun i =>
      matchToks toks (s.drop ((s.takeWhile isWordChar).length - i))
  | .wcap :: toks, s =>
    (List.range (s.takeWhile isWordChar).length).findSome? fun i =>
      (matchToks toks (s.drop ((s.takeWhile isWordChar).length - i))).map fun gs =>
        s.take ((s.takeWhile isWordChar).length - i) :: gs
  | .sstar :: toks, s =>
    (List.range ((s.takeWhile isSpaceCh).length + 1)).findSome? fun i =>
      matchToks toks (s.drop ((s.takeWhile isSpaceCh).length - i))

/-- Python `re.search` for these patterns: try every start position from the
left, returning the first (leftmost) match's groups, as `Series.str.extract`
does. -/
def searchMatch (pat : List RTok) : List Char → Option (List (List Char))
  | [] => matchToks pat []
  | c :: cs =>
    match matchToks pat (c :: cs) with
    | some gs => some gs
    | none => searchMatch pat cs

/-- Pattern of `df['city'] = df['location'].str.extract(r'(\w+),\s*\w+,\s*(\w+)$')[0]`. -/
def cityPat : List RTok :=
  [.wcap, .lit ',', .sstar, .wplain, .lit ',', .sstar, .wcap, .eos]

/-- Pattern of `df['neighborhood'] = df['location'].str.extract(r'(\w+),\s*(\w+),\s*\w+$')[1]`. -/
def neighborhoodPat : List RTok :=
  [.wcap, .lit ',', .sstar, .wcap, .lit ',', .sstar, .wplain, .eos]

/-- Pattern of `df['region'] = df['location'].str.extract(r'(\w+)$')[0]`. -/
def regionPat : List RTok := [.wcap, .eos]

/-- Step 6 city extraction: group 0 of the city pattern (`[0]` in the
source); a missing location or a failed match yields missing (`NaN`). -/
def extractCity (loc : Option String) : Option String :=
  loc.bind fun s => (searchMatch cityPat s.toList).bind fun gs => (gs.get? 0).map String.mk

/-- Step 6 neighborhood extraction: group 1 of the neighborhood pattern
(`[1]` in the source). -/
def extractNeighborhood (loc : Option String) : Option String :=
  loc.bind fun s =>
    (searchMatch neighborhoodPat s.toList).bind fun gs => (gs.get? 1).map String.mk

/-- Step 6 region extraction: group 0 of `(\w+)$`. -/
def extractRegion (loc : Option String) : Option String :=
  loc.bind fun s => (searchMatch regionPat s.toList).bind fun gs => (gs.get? 0).map String.mk

/-- Claim C1: evaluating the Step 6 extraction at the specified location
string. The code assigns group 0 of `(\w+),\s*\w+,\s*(\w+)$` — whose leftmost
end-anchored match starts at the third-from-last token — to `city`, and
group 1 of `(\w+),\s*(\w+),\s*\w+$` to `neighborhood`, so city and
neighborhood come out swapped relative to the claim: city is "Śródmieście"
(a district) and neighborhood is "Warszawa" (the city); only region matches
the claim. -/
theorem location_extraction_at_sample :
    extractCity (some "Mokotów, Śródmieście, Warszawa, mazowieckie") = some "Śródmieście" ∧
      extractNeighborhood (some "Mokotów, Śródmieście, Warszawa, mazowieckie") = some "Warszawa" ∧
      extractRegion (some "Mokotów, Śródmieście, Warszawa, mazowieckie") = some "mazowieckie" ∧
      extractCity (some "Mokotów, Śródmieście, Warszawa, mazowieckie") ≠ some "Warszawa" := by
  refine ⟨by decide, by decide, by decide, by decide⟩

theorem matchToks_nil_unfold (s : List Char) : matchToks [] s = some [] := rfl

theorem matchToks_eos_unfold (toks : List RTok) (s : List Char) :
    matchToks (.eos :: toks) s = if s.isEmpty then matchToks toks s else none := rfl

theorem matchToks_lit_unfold (c : Char) (toks : List RTok) (s : List Char) :
    matchToks (.lit c :: toks) s =
      match s with
      | [] => none
      | x :: xs => if x = c then matchToks toks xs else none := rfl

theorem matchToks_wcap_unfold (toks : List RTok) (s : List Char) :
    matchToks (.wcap :: toks) s =
      (List.range (s.takeWhile isWordChar).length).findSome? fun i =>
        (matchToks toks (s.drop ((s.takeWhile isWordChar).length - i))).map fun gs =>
          s.take ((s.takeWhile isWordChar).length - i) :: gs := rfl

theorem searchMatch_cons_unfold (pat : List RTok) (c : Char) (cs : List Char) :
    searchMatch pat (c :: cs) =
      match matchToks pat (c :: cs) with
      | some gs => some gs
      | none => searchMatch pat cs := rfl

theorem searchMatch_nil_unfold (pat : List RTok) :
    searchMatch pat [] = matchToks pat [] := rfl

theorem matchToks_comma_pattern_none (toks : List RTok) (s : List Char) (h : ',' ∉ s) :
    matchToks (.wcap :: .lit ',' :: toks) s = none := by
  rw [matchToks_wcap_unfold]
  apply List.findSome?_eq_none_iff.mpr
  intro i _
  have hn : matchToks (.lit ',' :: toks)
      (s.drop ((s.takeWhile isWordChar).length - i)) = none := by
    rw [matchToks_lit_unfold]
    cases hd : s.drop ((s.takeWhile isWordChar).length - i) with
    | nil => simp
    | cons x xs =>
      have hx : x ∈ s := List.mem_of_mem_drop (hd ▸ List.mem_cons_self x xs)
      have hne : ¬x = ',' := fun e => h (e ▸ hx)
      simp [hne]
  simp [hn]

theorem searchMatch_comma_pattern_none (toks : List RTok) (s : List Char) (h : ',' ∉ s) :
    searchMatch (.wcap :: .lit ',' :: toks) s = none := by
  induction s with
  | nil => rw [searchMatch_nil_unfold, matchToks_comma_pattern_none _ _ h]
  | cons c cs ih =>
    rw [searchMatch_cons_unfold, matchToks_comma_pattern_none _ _ h]
    exact ih fun hm => h (List.mem_cons_of_mem c hm)

theorem matchToks_region_all_word (s : List Char) (h1 : s ≠ [])
    (h2 : ∀ c ∈ s, isWordChar c = true) :
    matchToks regionPat s = some [s] := by
  have hw : s.takeWhile isWordChar = s :=
    List.takeWhile_eq_self_iff.mpr fun x hx => h2 x hx
  obtain ⟨c, cs, rfl⟩ := List.exists_cons_of_ne_nil h1
  rw [show regionPat = [.wcap, .eos] from rfl, matchToks_wcap_unfold, hw,
    List.length_cons, List.range_succ_eq_map, List.findSome?_cons]
  simp [matchToks_eos_unfold, matchToks_nil_unfold]

theorem searchMatch_region_all_word (s : List Char) (h1 : s ≠ [])
    (h2 : ∀ c ∈ s, isWordChar c = true) :
    searchMatch regionPat s = some [s] := by
  obtain ⟨c, cs, rfl⟩ := List.exists_cons_of_ne_nil h1
  rw [searchMatch_cons_unfold, matchToks_region_all_word (c :: cs) h1 h2]

/-- Claim C8 (amended): a single-token location string (no comma, all word
characters) yields missing for `city` and `neighborhood`, whose patterns
require two commas — but `region`, extracted with the anchor-only pattern
`(\w+)$`, is set to the token itself, not to missing. -/
theorem single_token_location_extraction (s : String)
    (h1 : s.toList ≠ [])
    (h2 : ∀ c ∈ s.toList, isWordChar c = true) :
    extractCity (some s) = none ∧ extractNeighborhood (some s) = none ∧
      extractRegion (some s) = some s := by
  have hc : ',' ∉ s.toList := fun hm => by
    have := h2 ',' hm
    simp [isWordChar] at this
  refine ⟨?_, ?_, ?_⟩
  · show (searchMatch cityPat s.toList).bind _ = none
    rw [show cityPat = .wcap :: .lit ',' :: [.sstar, .wplain, .lit ',', .sstar, .wcap, .eos] from rfl,
      searchMatch_comma_pattern_none _ _ hc]
    rfl
  · show (searchMatch neighborhoodPat s.toList).bind _ = none
    rw [show neighborhoodPat = .wcap :: .lit ',' :: [.sstar, .wcap, .lit ',', .sstar, .wplain, .eos] from rfl,
      searchMatch_comma_pattern_none _ _ hc]
    rfl
  · show (searchMatch regionPat s.toList).bind _ = some s
    rw [searchMatch_region_all_word s.toList h1 h2]
    rfl

/-- Claim C8, counterexample: on the single-token location `"Warszawa"` the
region is extracted as `"Warszawa"` itself, not as missing, while city and
neighborhood are missing — the claim's "missing for city, neighborhood, and
region alike" fails on region. -/
theorem single_token_region_not_missing :
    extractRegion (some "Warszawa") = some "Warszawa" ∧
      extractCity (some "Warszawa") = none ∧
      extractNeighborhood (some "Warszawa") = none ∧
      (some "Warszawa" : Option String) ≠ none := by
  refine ⟨by decide, by decide, by decide, by decide⟩

/-- Claim C8, witness: the amended theorem applied at the single-token
string `"mazowieckie"`. -/
theorem single_token_location_extraction_witness :
    ("mazowieckie".toList ≠ []) ∧ (∀ c ∈ "mazowieckie".toList, isWordChar c = true) ∧
      (extractCity (some "mazowieckie") = none ∧
        extractNeighborhood (some "mazowieckie") = none ∧
        extractRegion (some "mazowieckie") = some "mazowieckie") :=
  ⟨by decide, by decide, single_token_location_extraction "mazowieckie" (by decide) (by decide)⟩

/-! ## Step 9: amenity extraction -/

/-- The fixed amenity vocabulary from `extract_amenities` in the source. -/
def amenities : List String :=
  ["balkon", "taras", "garaż/miejsce parkingowe", "piwnica",
    "oddzielna kuchnia", "ogródek", "pom. użytkowe"]

/-- Case folding as performed by `re.IGNORECASE` on the characters this
dataset uses: ASCII letters plus the Polish letters of the vocabulary. -/
def lowerPL (c : Char) : Char :=
  if c = 'Ą' then 'ą' else if c = 'Ć' then 'ć' else if c = 'Ę' then 'ę'
  else if c = 'Ł' then 'ł' else if c = 'Ń' then 'ń' else if c = 'Ó' then 'ó'
  else if c = 'Ś' then 'ś' else if c = 'Ź' then 'ź' else if c = 'Ż' then 'ż'
  else c.toLower

/-- Does the pattern match at the start of the text?  `Series.str.contains`
defaults to `regex=True`, so the vocabulary phrase is a regular expression:
`.` matches any character except a newline; every other character of the
seven phrases is a literal, compared case-insensitively (`case=False`). -/
def patMatchAt : List Char → List Char → Bool
  | [], _ => true
  | _ :: _, [] => false
  | p :: ps, c :: cs =>
    (if p = '.' then decide (c ≠ '\n') else decide (lowerPL c = lowerPL p)) &&
      patMatchAt ps cs

/-- `re.search` for such a pattern: does it match at some position? -/
def regexFind : List Char → List Char → Bool
  | pat, [] => patMatchAt pat []
  | pat, c :: cs => patMatchAt pat (c :: cs) || regexFind pat cs

/-- Column name `f'has_{amenity.replace("/", "_").replace(" ", "_").lower()}'`
from the source (`.lower()` realised by `lowerPL`, exact on the vocabulary's
character set). -/
def amenityColName (a : String) : String :=
  "has_" ++ ⟨(strReplace (strReplace a "/" "_") " " "_").toList.map lowerPL⟩

/-- One amenity indicator:
`data['Informacje dodatkowe'].str.contains(amenity, case=False, na=False).astype(int)`
for a single cell — a missing cell yields 0 (`na=False`), otherwise 1 iff the
phrase, as a case-insensitive regex, matches somewhere in the field. -/
def amenityIndicator (field : Option String) (a : String) : Nat :=
  match field with
  | none => 0
  | some s => if regexFind a.toList s.toList then 1 else 0

/-- The source's `extract_amenities` applied to one row's free-text field:
the list of (column name, indicator) pairs it creates, in vocabulary order. -/
def extract_amenities (field : Option String) : List (String × Nat) :=
  amenities.map fun a => (amenityColName a, amenityIndicator field a)

/-- Case-insensitive literal substring containment — what the claim asserts
the extractor computes. -/
def ciSubstring (pat s : String) : Bool :=
  go (pat.toList.map lowerPL) (s.toList.map lowerPL)
where
  go (p : List Char) : List Char → Bool
    | [] => p.isEmpty
    | c :: cs => p.isPrefixOf (c :: cs) || go p cs

/-- Claim C7, counterexample: the field `"pomx użytkowe"` does not contain
the phrase `"pom. użytkowe"` as a substring (case-insensitively or not), yet
its indicator is 1, because `str.contains` treats the phrase as a regex in
which `.` matches any character. -/
theorem amenity_indicator_not_substring :
    amenityIndicator (some "pomx użytkowe") "pom. użytkowe" = 1 ∧
      ciSubstring "pom. użytkowe" "pomx użytkowe" = false := by
  refine ⟨by decide, by decide⟩

/-- Claim C7 (amended): for every field value and vocabulary phrase, the
indicator is 1 iff the field is present and the phrase — read as a
case-insensitive regular expression, in which the `.` of `"pom. użytkowe"`
matches any single non-newline character and the other six phrases are
literal substrings — matches somewhere in the field; a missing field yields 0
for every indicator and never an error; every indicator is exactly 0 or 1;
and `extract_amenities` emits exactly one such indicator per phrase. -/
theorem amenity_indicator_regex_semantics (field : Option String) (a : String)
    (ha : a ∈ amenities) :
    (amenityIndicator field a = 1 ↔
        ∃ s, field = some s ∧ regexFind a.toList s.toList = true) ∧
      (field = none → amenityIndicator field a = 0) ∧
      (amenityIndicator field a = 0 ∨ amenityIndicator field a = 1) ∧
      extract_amenities field = amenities.map fun x => (amenityColName x, amenityIndicator field x) := by
  refine ⟨?_, ?_, ?_, rfl⟩
  · cases field with
    | none =>
      constructor
      · intro h
        exact absurd h (by simp [amenityIndicator])
      · rintro ⟨s, hs, -⟩
        exact Option.noConfusion hs
    | some s =>
      by_cases hf : regexFind a.toList s.toList
      · constructor
        · intro _
          exact ⟨s, rfl, hf⟩
        · intro _
          show (if regexFind a.toList s.toList then 1 else 0) = 1
          rw [hf]
          rfl
      · have hf2 : regexFind a.toList s.toList = false := by
          rwa [Bool.not_eq_true] at hf
        constructor
        · intro h
          have h1 : (if regexFind a.toList s.toList then 1 else 0) = 1 := h
          rw [hf2] at h1
          exact absurd h1 (by simp)
        · rintro ⟨t, ht, htt⟩
          injection ht with ht1
          subst ht1
          exact absurd htt hf
  · intro h
    subst h
    rfl
  · cases field with
    | none => exact Or.inl rfl
    | some s =>
      by_cases hf : regexFind a.toList s.toList
      · refine Or.inr ?_
        show (if regexFind a.toList s.toList then 1 else 0) = 1
        rw [hf]
        rfl
      · refine Or.inl ?_
        have hf2 : regexFind a.toList s.toList = false := by
          rwa [Bool.not_eq_true] at hf
        show (if regexFind a.toList s.toList then 1 else 0) = 0
        rw [hf2]
        rfl

/-- Claim C7, witness: the amended theorem applied to the phrase "balkon"
and a mixed-case field containing it. -/
theorem amenity_indicator_regex_semantics_witness :
    ("balkon" ∈ amenities) ∧
      ((amenityIndicator (some "Balkon i taras") "balkon" = 1 ↔
          ∃ s, (some "Balkon i taras" : Option String) = some s ∧
            regexFind "balkon".toList s.toList = true) ∧
        ((some "Balkon i taras" : Option String) = none →
          amenityIndicator (some "Balkon i taras") "balkon" = 0) ∧
        (amenityIndicator (some "Balkon i taras") "balkon" = 0 ∨
          amenityIndicator (some "Balkon i taras") "balkon" = 1) ∧
        extract_amenities (some "Balkon i taras") =
          amenities.map fun x => (amenityColName x, amenityIndicator (some "Balkon i taras") x)) :=
  ⟨by decide, amenity_indicator_regex_semantics (some "Balkon i taras") "balkon" (by decide)⟩

/-! ## Steps 11 and 16: log target and evaluation -/

/-- Step 11, from the source: `df['log_price'] = np.log(df['price'])`. -/
noncomputable def logPrice (p : ℝ) : ℝ := Real.log p

/-- Step 16 inverse transform, from the source: `np.exp(...)`. -/
noncomputable def expPrice (x : ℝ) : ℝ := Real.exp x

/-- The log-transformed target column. -/
noncomputable def logTarget (prices : List ℝ) : List ℝ := prices.map logPrice

/-- `sklearn.metrics.mean_absolute_error`: mean of absolute differences of
paired entries (the two columns have equal length in the pipeline). -/
noncomputable def meanAbsErr (actual preds : List ℝ) : ℝ :=
  (((actual.zip preds).map fun q => |q.1 - q.2|).sum) / ((actual.zip preds).length : ℝ)

/-- Step 16, from the source:
`y_pred = np.exp(model.predict(X_test)); mae = mean_absolute_error(np.exp(y_test), y_pred)` —
the inverse transform is applied to both the predictions and the held-out
truth before the metric. -/
noncomputable def evaluateRun (yTestLog predLog : List ℝ) : ℝ :=
  meanAbsErr (yTestLog.map expPrice) (predLog.map expPrice)

/-- Claim C5 (amended): the Target Transformer's forward transform is the
natural logarithm and its inverse is the exponential, and they are exact
inverses on every positive price (the idealisation of "up to floating point"
over the reals); the target column is the pointwise log of price, and the
evaluation applies the exponential to both predictions and held-out truth
before the mean absolute error. The original claim's quantification over
every surviving price fails: cleaning and outlier filtering do not enforce
positivity, and at a surviving price of 0 the round trip breaks (see the
counterexample), so the guarantee holds only for positive prices. -/
theorem target_transform_roundtrip (p : ℝ) (hp : 0 < p) :
    expPrice (logPrice p) = p ∧
      logTarget = (fun prices => prices.map fun x => Real.log x) ∧
      evaluateRun = fun yTestLog predLog =>
        meanAbsErr (yTestLog.map expPrice) (predLog.map expPrice) :=
  ⟨Real.exp_log hp, rfl, rfl⟩

/-- Five cleaned rows whose prices are 0, 1, 2, 3, 4: the quartiles are 1 and
3, so the IQR fences are (−2, 6) and the 0-priced row survives the Outlier
Filter. -/
def zeroPriceListings : List Listing :=
  [⟨some 0, some 5⟩, ⟨some 1, some 5⟩, ⟨some 2, some 5⟩, ⟨some 3, some 5⟩,
    ⟨some 4, some 5⟩]

/-- Claim C5, counterexample: a price text of `"0 zł"` survives the cleaning
stage with price 0, the 0-priced row survives the outlier filter on its row
set, and forward-then-inverse at 0 does not return the original price — so
the claim's round-trip guarantee over every surviving price is false (over
the reals `log 0 = 0` and `exp 0 = 1`; in IEEE arithmetic `log(0)` is
`-inf` with a runtime warning, and a negative survivor round-trips to NaN). -/
theorem target_transform_claim_counterexample :
    cleanPrice (some "0 zł") = .ok (some (0 : ℚ)) ∧
      (⟨some 0, some 5⟩ : Listing) ∈ removeOutliers zeroPriceListings Listing.price ∧
      expPrice (logPrice 0) ≠ 0 := by
  refine ⟨rfl, ?_, ?_⟩
  · have hq1 : quantile4 1 (zeroPriceListings.filterMap Listing.price) = some 1 := by
      have e : quantile4 1 (zeroPriceListings.filterMap Listing.price) =
          some ((1 : ℚ) + (0 : ℚ) / 4 * (2 - 1)) := rfl
      rw [e]; norm_num
    have hq3 : quantile4 3 (zeroPriceListings.filterMap Listing.price) = some 3 := by
      have e : quantile4 3 (zeroPriceListings.filterMap Listing.price) =
          some ((3 : ℚ) + (0 : ℚ) / 4 * (4 - 3)) := rfl
      rw [e]; norm_num
    unfold removeOutliers
    rw [hq1, hq3]
    refine List.mem_filter.mpr ⟨by decide, ?_⟩
    show (decide ((1 : ℚ) - 3 / 2 * (3 - 1) < 0) &&
        decide ((0 : ℚ) < 3 + 3 / 2 * (3 - 1))) = true
    rw [decide_eq_true (by norm_num : (1 : ℚ) - 3 / 2 * (3 - 1) < 0),
      decide_eq_true (by norm_num : (0 : ℚ) < 3 + 3 / 2 * (3 - 1))]
    rfl
  · show Real.exp (Real.log 0) ≠ 0
    rw [Real.log_zero, Real.exp_zero]
    exact one_ne_zero

/-- Claim C5, witness: the round trip at the concrete price 2. -/
theorem target_transform_roundtrip_witness :
    (0 : ℝ) < 2 ∧
      (expPrice (logPrice 2) = 2 ∧
        logTarget = (fun prices => prices.map fun x => Real.log x) ∧
        evaluateRun = fun yTestLog predLog =>
          meanAbsErr (yTestLog.map expPrice) (predLog.map expPrice)) :=
  ⟨by norm_num, target_transform_roundtrip 2 (by norm_num)⟩

/-! ## Step 13: feature column lists -/

/-- Assigning to a dataframe column: appends the column at the end when it is
new, otherwise overwrites in place (column order unchanged). -/
def addColumn (cols : List String) (c : String) : List String :=
  if c ∈ cols then cols else cols ++ [c]

/-- `df.drop(columns=[c])`: removes the column, keeping the others in order. -/
def dropColumn (cols : List String) (c : String) : List String :=
  cols.filter fun x => decide (x ≠ c)

/-- The seven amenity indicator column names created in Step 9. -/
def amenityColumns : List String := amenities.map amenityColName

/-- The dataframe's column list after Steps 3-11: Step 5 adds `has_czynsz`,
Step 6 adds `city`, `neighborhood`, `region` and drops `location`, Step 8
adds `price_per_sqm`, Step 9 adds the amenity columns and drops
`Informacje dodatkowe`, Step 11 adds `log_price` (Steps 3, 4, 7 and 10 only
change values or rows, not columns). -/
def columnsAfterPrep (base : List String) : List String :=
  addColumn
    (dropColumn
      (amenityColumns.foldl addColumn
        (addColumn
          (dropColumn
            (addColumn (addColumn (addColumn (addColumn base "has_czynsz") "city")
              "neighborhood") "region")
            "location")
          "price_per_sqm"))
      "Informacje dodatkowe")
    "log_price"

/-- Step 13, from the source:
`numerical_features = ['size', 'Czynsz', 'has_czynsz', 'price_per_sqm'] + [col for col in df.columns if col.startswith('has_')]`. -/
def numericalFeatures (base : List String) : List String :=
  ["size", "Czynsz", "has_czynsz", "price_per_sqm"] ++
    (columnsAfterPrep base).filter fun c => "has_".toList.isPrefixOf c.toList

theorem count_addColumn_self (l : List String) (h : l.count "has_czynsz" ≤ 1) :
    (addColumn l "has_czynsz").count "has_czynsz" = 1 := by
  unfold addColumn
  split
  · next hmem =>
    have h1 : 0 < l.count "has_czynsz" := List.count_pos_iff.mpr hmem
    omega
  · next hmem =>
    rw [List.count_append, List.count_eq_zero.mpr hmem]
    rfl

theorem count_addColumn_ne (l : List String) (c : String) (h : ¬c = "has_czynsz") :
    (addColumn l c).count "has_czynsz" = l.count "has_czynsz" := by
  unfold addColumn
  split
  · rfl
  · rw [List.count_append]
    have h0 : ([c] : List String).count "has_czynsz" = 0 :=
      List.count_eq_zero.mpr (by simp; exact fun e => h e.symm)
    rw [h0, Nat.add_zero]

theorem count_foldl_addColumn (names : List String) (l : List String)
    (h : ∀ n ∈ names, ¬n = "has_czynsz") :
    (names.foldl addColumn l).count "has_czynsz" = l.count "has_czynsz" := by
  induction names generalizing l with
  | nil => rfl
  | cons n ns ih =>
    rw [List.foldl_cons, ih _ fun m hm => h m (List.mem_cons_of_mem n hm),
      count_addColumn_ne l n (h n (List.mem_cons_self n ns))]

theorem count_dropColumn_ne (l : List String) (c : String) (h : ¬c = "has_czynsz") :
    (dropColumn l c).count "has_czynsz" = l.count "has_czynsz" := by
  unfold dropColumn
  exact List.count_filter (decide_eq_true fun e => h e.symm)

/-- Claim C10: the numeric feature list hands `has_czynsz` to the numeric
pipeline branch twice — once listed explicitly and once picked up by the
`has_`-prefix scan over the engineered columns — for every base CSV header
(pandas' `read_csv` mangles duplicate headers, hence the hypothesis). -/
theorem numericalFeatures_has_czynsz_twice (base : List String)
    (h : base.count "has_czynsz" ≤ 1) :
    (numericalFeatures base).count "has_czynsz" = 2 := by
  unfold numericalFeatures
  rw [List.count_append]
  have hfilter :
      ((columnsAfterPrep base).filter fun c => "has_".toList.isPrefixOf c.toList).count
          "has_czynsz" =
        (columnsAfterPrep base).count "has_czynsz" :=
    List.count_filter (by decide)
  have hcols : (columnsAfterPrep base).count "has_czynsz" = 1 := by
    unfold columnsAfterPrep
    rw [count_addColumn_ne _ _ (by decide), count_dropColumn_ne _ _ (by decide),
      count_foldl_addColumn _ _ (by decide), count_addColumn_ne _ _ (by decide),
      count_dropColumn_ne _ _ (by decide), count_addColumn_ne _ _ (by decide),
      count_addColumn_ne _ _ (by decide), count_addColumn_ne _ _ (by decide)]
    exact count_addColumn_self base h
  rw [hfilter, hcols]
  rfl

/-- The columns the source reads from the CSV (header of `otodom_data.csv`
as used by the notebook). -/
def csvBaseColumns : List String :=
  ["title", "price", "size", "location", "Czynsz", "Informacje dodatkowe",
    "Ogrzewanie", "Piętro", "Stan wykończenia", "Rynek", "Forma własności",
    "Typ ogłoszeniodawcy"]

/-- Claim C10, witness: the duplication on the actual CSV header. -/
theorem numericalFeatures_has_czynsz_twice_witness :
    csvBaseColumns.count "has_czynsz" ≤ 1 ∧
      (numericalFeatures csvBaseColumns).count "has_czynsz" = 2 :=
  ⟨by decide, numericalFeatures_has_czynsz_twice csvBaseColumns (by decide)⟩

/-! ## Steps 13-16: the fitted feature pipeline

The `SimpleImputer`, `StandardScaler`, `OneHotEncoder`, `ColumnTransformer`
and `Pipeline` objects come from scikit-learn, whose code is not part of this
repository; their fit/transform behaviour is modelled from the spec. -/

/-- Modelled from the spec: the numeric branch's fitted statistics (sklearn
`SimpleImputer(strategy='mean')` then `StandardScaler`) — the imputation mean
over the present training values, and the mean and variance of the imputed
training column. -/
noncomputable def fitNumStats (train : List (Option ℝ)) : ℝ × ℝ × ℝ :=
  let m := (train.filterMap id).sum / ((train.filterMap id).length : ℝ)
  let imp := train.map fun x => x.getD m
  let mu := imp.sum / (imp.length : ℝ)
  (m, mu, (imp.map fun v => (v - mu) ^ 2).sum / (imp.length : ℝ))

/-- Modelled from the spec: transforming a numeric column with the fitted
statistics — impute missing cells with the stored mean, then standardise
with the stored mean and scale (sklearn maps a zero variance to unit scale);
the fitted state is returned unchanged, since `transform` only reads it. -/
noncomputable def transformNum (st : ℝ × ℝ × ℝ) (xs : List (Option ℝ)) :
    List ℝ × (ℝ × ℝ × ℝ) :=
  (xs.map fun x =>
      (x.getD st.1 - st.2.1) / (if st.2.2 = 0 then 1 else Real.sqrt st.2.2), st)

/-- Modelled from the spec: the categorical branch's fitted state (sklearn
`SimpleImputer(strategy='constant', fill_value='missing')` then
`OneHotEncoder(handle_unknown='ignore')`) — the vocabulary of distinct
category values seen during fit, after filling missing with `"missing"`. -/
def fitCatVocab (train : List (Option String)) : List String :=
  (train.map fun x => x.getD "missing").dedup

/-- Modelled from the spec: one-hot transforming a categorical column with a
fitted vocabulary; a value unseen at fit time encodes as all zeros and the
vocabulary is returned unchanged. -/
def transformCat (vocab : List String) (xs : List (Option String)) :
    List (List Nat) × List String :=
  (xs.map fun x => vocab.map fun v => if v = x.getD "missing" then 1 else 0, vocab)

/-- The fitted preprocessor: numeric statistics and one-hot vocabulary. -/
structure FittedPipe where
  numStats : ℝ × ℝ × ℝ
  vocab : List String

/-- Modelled from the spec: fitting the two-branch `ColumnTransformer` on the
training partition only. -/
noncomputable def fitPipe (numTr : List (Option ℝ)) (catTr : List (Option String)) :
    FittedPipe :=
  ⟨fitNumStats numTr, fitCatVocab catTr⟩

/-- Modelled from the spec: transforming any input with a fitted
preprocessor; both branches only read the fitted state. -/
noncomputable def transformPipe (fp : FittedPipe) (numX : List (Option ℝ))
    (catX : List (Option String)) : (List ℝ × List (List Nat)) × FittedPipe :=
  (((transformNum fp.numStats numX).1, (transformCat fp.vocab catX).1), fp)

/-- Step 15/16 as run by the notebook: `model.fit(X_train, y_train)` fits the
preprocessor once on the training partition and transforms it; `predict` on
the test partition reuses that fitted state. Returns the state after the
whole run together with both transformed partitions. -/
noncomputable def pipelineRun (numTr : List (Option ℝ)) (catTr : List (Option String))
    (numTe : List (Option ℝ)) (catTe : List (Option String)) :
    FittedPipe × (List ℝ × List (List Nat)) × (List ℝ × List (List Nat)) :=
  let fp := fitPipe numTr catTr
  let tr := transformPipe fp numTr catTr
  let te := transformPipe tr.2 numTe catTe
  (te.2, tr.1, te.1)

/-- Claim C9: the Feature Pipeline is fit exactly once, on the training
partition only — after the whole run the fitted statistics are exactly those
computed from the training partition, transforming the test partition leaves
them unchanged, and applying the fitted pipeline to the same input twice
yields identical output. -/
theorem pipeline_fit_once_pure_transform (numTr : List (Option ℝ))
    (catTr : List (Option String)) (numTe : List (Option ℝ))
    (catTe : List (Option String)) :
    (pipelineRun numTr catTr numTe catTe).1 = fitPipe numTr catTr ∧
      (transformPipe (fitPipe numTr catTr) numTe catTe).2 = fitPipe numTr catTr ∧
      (transformPipe ((transformPipe (fitPipe numTr catTr) numTe catTe).2) numTe catTe).1 =
        (transformPipe (fitPipe numTr catTr) numTe catTe).1 :=
  ⟨rfl, rfl, rfl⟩
